import Mathlib

/-!
Shallow embedding of the proof-verification conversation engine of
`src/semkon/main.py` (the `Linter` class and its helpers).

Modelling conventions:
* File paths (Python `pathlib.Path`, which carries a total order used by
  `sorted`) are an abstract linearly ordered type `P`.
* The tokenizer (`len(enc.encode(text))`), file reading
  (`(directory / p).read_text()`), display formatting
  (`format_file(text, rel_path)`), `str(path)` and the dependency-graph JSON
  are external collaborators; they enter the model as function-valued fields
  of `Config`.
* The OpenAI chat endpoint is an `Oracle`: a function from the request
  (message list and optional completion-token cap) to a `ServiceResult`.
  `ServiceResult.apiError` covers `BadRequestError` and
  `LengthFinishReasonError`; `RawResponse` carries the optional usage,
  content and parsed payload exactly as the code inspects them.
* Python exceptions that abort the whole run (`RuntimeError`, `TimeoutError`)
  are the `Except.error` channel / `TurnResult.fatal`; per-property `Failure`
  results are ordinary values.
* `callsMade` counts issued API calls and `disclosures` records, per built
  message, which files' contents were inlined (one `format_file` call each);
  both instrument events of the source code without altering its control flow.
-/

namespace Semkon

/-- MAX_FILES_REQUESTED from main.py line 32. -/
def MAX_FILES_REQUESTED : Nat := 5

/-- MESSAGE_ENVELOPE_TOKENS from main.py line 35. -/
def MESSAGE_ENVELOPE_TOKENS : Nat := 300

/-- MAX_CONTEXT_LENGTH from main.py line 45. -/
def MAX_CONTEXT_LENGTH : Int := 100000

/-- PropertyLocation model (main.py lines 54-56); `rel_path` is a path of the
abstract path type `P`. -/
structure PropertyLocation (P : Type) where
  rel_path : P
  line_num : Nat
deriving DecidableEq

/-- The correctness literal of CorrectnessExplanation (main.py line 60). -/
inductive Correctness where
  | correct
  | incorrect
  | unknown
deriving DecidableEq

/-- CorrectnessExplanation model (main.py lines 59-61). -/
structure CorrectnessExplanation where
  correctness : Correctness
  explanation : String
deriving DecidableEq

/-- Failure model (main.py lines 76-77). -/
structure Failure where
  msg : String
deriving DecidableEq

/-- ProofCheckResult model (main.py lines 80-82); the union
`CorrectnessExplanation | Failure` becomes a sum. -/
structure ProofCheckResult (P : Type) where
  property_location : PropertyLocation P
  correctness_explanation : CorrectnessExplanation ⊕ Failure
deriving DecidableEq

/-- Chat message roles used by the engine. -/
inductive Role where
  | user
  | assistant
deriving DecidableEq

/-- One chat message, as appended to the `messages` list. -/
structure Message where
  role : Role
  content : String
deriving DecidableEq

/-- The `data` field of a parsed response: either a CorrectnessExplanation or
a FilesRequested payload (main.py lines 64-73).  The requested path strings
are modelled after their `Path(p)` conversion, i.e. as paths. -/
inductive ResponseData (P : Type) where
  | verdict (value : CorrectnessExplanation)
  | filesRequested (files : List P)
deriving DecidableEq

/-- Which response schema is handed to the service: FullFilesExcludedResponse
admits both payloads, FullFilesIncludedResponse only a verdict
(main.py lines 68-73). -/
inductive ResponseFormat where
  | fullFilesExcluded
  | fullFilesIncluded
deriving DecidableEq

/-- Whether a parsed payload is admitted by a response schema: the
FullFilesIncludedResponse schema has no FilesRequested member. -/
def admitsData {P : Type} : ResponseFormat → ResponseData P → Bool
  | _, .verdict _ => true
  | .fullFilesExcluded, .filesRequested _ => true
  | .fullFilesIncluded, .filesRequested _ => false

/-- The parts of one chat-completions response the engine inspects:
`resp.usage` (completion tokens), `resp.choices[0].message.content`,
`resp.choices[0].message.parsed.data` (main.py lines 317-332). -/
structure RawResponse (P : Type) where
  completion_tokens : Option Nat
  content : Option String
  parsed : Option (ResponseData P)

/-- Outcome of one API call: `apiError` covers the caught `BadRequestError`
and `LengthFinishReasonError` (main.py line 308); `ok` is a returned
response. -/
inductive ServiceResult (P : Type) where
  | apiError (errText : String)
  | ok (resp : RawResponse P)

/-- The external reasoning service, as a function of the request the engine
sends: the message list and the optional `max_completion_tokens` value. -/
def Oracle (P : Type) : Type :=
  List Message → Option Int → ServiceResult P

/-- The state a `Linter` instance carries into `check_proofs`, after
`__init__` ran: everything the conversation engine reads.  External
collaborators (tokenizer, file reading, formatting, dependency graph,
property extraction) appear as supplied functions / data. -/
structure Config (P : Type) where
  est : String → Nat
  maxMessages : Nat
  minLengthToExcludeFullFiles : Int
  relPaths : List P
  pathStr : P → String
  contents : P → String
  fmt : String → P → String
  depsJson : Option String
  propertyLocations : List (PropertyLocation P)
  maxTokensTotal : Option Int
  maxTokensPerProperty : Option Int

/-- The `documents` list of `__init__` (main.py lines 110-112): the text of
each file, in `rel_paths` order. -/
def Config.documents {P : Type} (cfg : Config P) : List String :=
  cfg.relPaths.map cfg.contents

/-- The `_exclude_full_files` flag (main.py lines 129-132):
`sum(len(doc) for doc in documents) >= min_length_to_exclude_full_files`. -/
def Config.excludeFullFiles {P : Type} (cfg : Config P) : Bool :=
  decide (cfg.minLengthToExcludeFullFiles ≤
    (cfg.documents.map (fun d => (d.length : Int))).sum)

/-- The `_python_deps_text` field (main.py lines 134-143). -/
def Config.pythonDepsText {P : Type} (cfg : Config P) : String :=
  match cfg.depsJson with
  | some j => "Here is the dependency graph of the codebase:\n" ++ j ++ "\n\n"
  | none => ""

/-- The response schema chosen for every call of a run
(main.py lines 302-306). -/
def responseFormatUsed {P : Type} (cfg : Config P) : ResponseFormat :=
  if cfg.excludeFullFiles then
    ResponseFormat.fullFilesExcluded
  else
    ResponseFormat.fullFilesIncluded

/-- The `correctness_blurb` literal of `_build_initial_message`
(main.py lines 151-158). -/
def correctnessBlurb : String :=
  "By \"correct\", we mean very high confidence that each step of the proof is valid,\nthe proof does in fact prove the proposition, and that the proof is supported by\nwhat the code does. Mark the proof as \"incorrect\" if you understand it and the\ncode but the proof is wrong. Use \"unknown\" if e.g. you don\x27t 100% know how an\nexternal library works, or the proof needs more detail. Skeptically and\nrigorously check every claim with references to the code. If the proof\nreferences an explicitly-stated axiom (or \"assumption\", etc), you can assume\nthat the axiom is correct."

/-- `_build_initial_message` (main.py lines 148-211): the full-disclosure
shape inlines every file, the incremental shape only the target file and the
two-response instructions. -/
def buildInitialMessage {P : Type} (cfg : Config P)
    (pl : PropertyLocation P) : String :=
  if cfg.excludeFullFiles = false then
    "The following is a listing of all files in a codebase:\n" ++
    String.intercalate "\n" (cfg.relPaths.map cfg.pathStr) ++
    "\n\nAt the end of this message is a listing of all file contents.\n\nThe file " ++
    cfg.pathStr pl.rel_path ++
    " contains one or more propositions\nabout the codebase. The proposition we are interested in is on line\n" ++
    toString pl.line_num ++
    ", and is followed by a proof.\n\nIn your response, state whether the proof (not the proposition) is correct.\n" ++
    correctnessBlurb ++
    "\n        \n\nFile contents:\n" ++
    String.intercalate "\n"
      (cfg.relPaths.map (fun p => cfg.fmt (cfg.contents p) p)) ++
    "\n            "
  else
    "The following is a listing of all files in a codebase:\n" ++
    String.intercalate "\n" (cfg.relPaths.map cfg.pathStr) ++
    "\n\n" ++
    cfg.pythonDepsText ++
    "\n\nAt the end of this message is a listing of the contents of " ++
    cfg.pathStr pl.rel_path ++
    ".\nThis file contains one or more propositions\nabout the codebase. The proposition we are interested in is on line\n" ++
    toString pl.line_num ++
    ", and is followed by a proof.\n\nThe goal of this conversation is to determine whether the proof \n(not the proposition) is correct.\n\nYour responses in this conversation can be one of the following.\n\n1. Request files\n\nIn this response, you may request to see additional files from the codebase in\norder to ultimately determine whether the proof is correct. They will be\nprovided to you in the next message. You will have the opportunity to request\nfurther files if needed, and we will repeat this process until you are ready to\nmake a final determination. You can request up to " ++
    toString MAX_FILES_REQUESTED ++
    " files\nat a time.\n\n2. Correctness verdict\n\nIn this response, state whether the proof is correct.\n" ++
    correctnessBlurb ++
    "\n(Use this response only if you have seen enough of\nthe codebase to make a determination.)\n\nFile contents:\n" ++
    cfg.fmt (cfg.contents pl.rel_path) pl.rel_path ++
    "\n            "

/-- Which files' contents `_build_initial_message` inlines (one
`format_file` call each): every file in full-disclosure shape, only the
target file in incremental shape. -/
def initialDisclosures {P : Type} (cfg : Config P)
    (pl : PropertyLocation P) : List P :=
  if cfg.excludeFullFiles = false then cfg.relPaths else [pl.rel_path]

/-- `_build_subsequent_message` (main.py lines 213-217). -/
def buildSubsequentMessage {P : Type} (cfg : Config P)
    (files_to_show : List P) : String :=
  "The requested files are given below.\n\n" ++
  String.intercalate "\n"
    (files_to_show.map (fun p => cfg.fmt (cfg.contents p) p)) ++
  "\n        "

/-- The per-turn input-token recomputation (main.py lines 271-275): the
tokenizer estimate plus the envelope overhead, summed over user-role
messages only. -/
def inputTokensInMessages (est : String → Nat) (messages : List Message) :
    Nat :=
  ((messages.filter (fun m => decide (m.role = Role.user))).map
    (fun m => est m.content + MESSAGE_ENVELOPE_TOKENS)).sum

/-- Resolution of a file-request payload (main.py lines 343-349):
`sorted((all_files & set(requested)) - files_shown)[:MAX_FILES_REQUESTED]`.
The sorted enumeration of that finite set is realised as an insertion sort
of the deduplicated request list filtered to known, unshown files; it is
proved below (claim C4) to list the set in increasing path order. -/
def resolveFilesRequested {P : Type} [LinearOrder P]
    (all_files files_shown : Finset P) (requested : List P) : List P :=
  (List.insertionSort (· ≤ ·)
    (requested.dedup.filter
      (fun p => decide (p ∈ all_files ∧ p ∉ files_shown)))).take
    MAX_FILES_REQUESTED

/-- The `all_files = set(self._rel_paths)` binding of `check_proof`
(main.py line 255). -/
def allFilesOf {P : Type} [LinearOrder P] (cfg : Config P) : Finset P :=
  cfg.relPaths.toFinset

/-- The mutable locals of one `check_proof` invocation, plus the `callsMade`
and `disclosures` instrumentation. -/
structure ConvState (P : Type) where
  filesShown : Finset P
  messages : List Message
  completionTokensUsed : Nat
  inputTokensSent : Nat
  callsMade : Nat
  disclosures : List (List P)
deriving DecidableEq

/-- Result of one loop iteration of `check_proof`: a returned
`(ProofCheckResult, token cost)` pair (with the call count), a raised
run-aborting exception, or the next iteration's state. -/
inductive TurnResult (P : Type) where
  | finished (result : ProofCheckResult P) (cost : Int) (calls : Nat)
  | fatal (msg : String)
  | next (st : ConvState P)
deriving DecidableEq

/-- Python's `max_tokens or MAX_CONTEXT_LENGTH` (main.py line 315): `None`
and `0` are falsy. -/
def falsyOrElse (maxTokens : Option Int) (d : Int) : Int :=
  match maxTokens with
  | none => d
  | some v => if v = 0 then d else v

/-- The `max_completion_tokens` value sent with the request
(main.py lines 279-283): the remaining allowance under the ceiling. -/
def mckOf {P : Type} (est : String → Nat) (maxTokens : Option Int)
    (st : ConvState P) : Option Int :=
  maxTokens.map
    (fun mt => mt - (st.completionTokensUsed : Int) -
      (inputTokensInMessages est st.messages : Int))

/-- The body of one `check_proof` iteration from the API call on
(main.py lines 297-364): error handling, usage/content/parsed checks,
and classification of the payload. -/
def turnCall {P : Type} [LinearOrder P] (cfg : Config P) (oracle : Oracle P)
    (pl : PropertyLocation P) (maxTokens : Option Int) (st : ConvState P) :
    TurnResult P :=
  match oracle st.messages (mckOf cfg.est maxTokens st) with
  | .apiError e =>
      .finished ⟨pl, .inr ⟨e⟩⟩ (falsyOrElse maxTokens MAX_CONTEXT_LENGTH)
        (st.callsMade + 1)
  | .ok resp =>
      match resp.completion_tokens with
      | none => .fatal "No token usage available"
      | some u =>
          match resp.content with
          | none => .fatal "No response from LLM"
          | some c =>
              match resp.parsed with
              | none => .fatal "No response from LLM"
              | some (.verdict ce) =>
                  .finished ⟨pl, .inl ce⟩
                    (((st.completionTokensUsed + u : Nat) : Int) +
                      (inputTokensInMessages cfg.est st.messages : Int))
                    (st.callsMade + 1)
              | some (.filesRequested req) =>
                  let files_requested :=
                    resolveFilesRequested (allFilesOf cfg) st.filesShown req
                  if files_requested = [] then .fatal "Invalid response"
                  else
                    .next
                      { filesShown :=
                          st.filesShown ∪ files_requested.toFinset
                        messages :=
                          st.messages ++
                            [⟨Role.assistant, c⟩,
                             ⟨Role.user,
                              buildSubsequentMessage cfg files_requested⟩]
                        completionTokensUsed := st.completionTokensUsed + u
                        inputTokensSent :=
                          inputTokensInMessages cfg.est st.messages
                        callsMade := st.callsMade + 1
                        disclosures := st.disclosures ++ [files_requested] }

/-- One full iteration of the `check_proof` loop (main.py lines 270-296 plus
`turnCall`): recompute the input estimate, enforce the ceiling (skipping the
call and failing with "Token limit reached" when the remaining allowance is
non-positive), otherwise issue the call. -/
def turn {P : Type} [LinearOrder P] (cfg : Config P) (oracle : Oracle P)
    (pl : PropertyLocation P) (maxTokens : Option Int) (st : ConvState P) :
    TurnResult P :=
  match maxTokens with
  | none => turnCall cfg oracle pl none st
  | some mt =>
      if mt - (st.completionTokensUsed : Int) -
          (inputTokensInMessages cfg.est st.messages : Int) ≤ 0 then
        .finished ⟨pl, .inr ⟨"Token limit reached"⟩⟩
          ((st.completionTokensUsed : Int) + (st.inputTokensSent : Int))
          st.callsMade
      else turnCall cfg oracle pl (some mt) st

/-- The locals of `check_proof` just before its loop starts
(main.py lines 254-268). -/
def initialState {P : Type} (cfg : Config P) (pl : PropertyLocation P) :
    ConvState P :=
  { filesShown := ∅
    messages := [⟨Role.user, buildInitialMessage cfg pl⟩]
    completionTokensUsed := 0
    inputTokensSent := 0
    callsMade := 0
    disclosures := [initialDisclosures cfg pl] }

/-- The `for _ in range(self._max_messages)` loop of `check_proof`; the
exhausted range raises `TimeoutError("No result after max messages")`
(main.py lines 270, 365-366). -/
def checkProofLoop {P : Type} [LinearOrder P] (cfg : Config P)
    (oracle : Oracle P) (pl : PropertyLocation P) (maxTokens : Option Int) :
    Nat → ConvState P → Except String (ProofCheckResult P × Int × Nat)
  | 0, _ => .error "No result after max messages"
  | fuel + 1, st =>
      match turn cfg oracle pl maxTokens st with
      | .finished r c k => .ok (r, c, k)
      | .fatal m => .error m
      | .next st' => checkProofLoop cfg oracle pl maxTokens fuel st'

/-- `check_proof` (main.py lines 251-366), returning the result, the token
cost it reports, and the number of API calls issued. -/
def checkProof {P : Type} [LinearOrder P] (cfg : Config P)
    (oracle : Oracle P) (pl : PropertyLocation P) (maxTokens : Option Int) :
    Except String (ProofCheckResult P × Int × Nat) :=
  checkProofLoop cfg oracle pl maxTokens cfg.maxMessages
    (initialState cfg pl)

/-- The per-property ceiling computation of `check_proofs`
(main.py lines 223-241). -/
def maxTokensFor (maxTokensTotal maxTokensPerProperty : Option Int)
    (tokensUsed : Int) : Option Int :=
  match maxTokensPerProperty, maxTokensTotal with
  | none, none => none
  | none, some t => some (min (t - tokensUsed) MAX_CONTEXT_LENGTH)
  | some p, none => some (min p MAX_CONTEXT_LENGTH)
  | some p, some t =>
      some (min p (min (t - tokensUsed) MAX_CONTEXT_LENGTH))

/-- The `check_proofs` loop (main.py lines 219-249), instrumented to keep,
per property, the result, the cost added to `tokens_used`, and the ceiling
that was computed for it. -/
def checkProofsTrace {P : Type} [LinearOrder P] (cfg : Config P)
    (oracle : Oracle P) :
    List (PropertyLocation P) → Int →
      Except String (List (ProofCheckResult P × Int × Option Int))
  | [], _ => .ok []
  | pl :: rest, tokensUsed =>
      match checkProof cfg oracle pl
          (maxTokensFor cfg.maxTokensTotal cfg.maxTokensPerProperty
            tokensUsed) with
      | .error e => .error e
      | .ok (pcr, cost, _) =>
          match checkProofsTrace cfg oracle rest (tokensUsed + cost) with
          | .error e => .error e
          | .ok rest' =>
              .ok ((pcr, cost,
                maxTokensFor cfg.maxTokensTotal cfg.maxTokensPerProperty
                  tokensUsed) :: rest')

/-- `check_proofs` (main.py lines 219-249): the list of results, starting
from zero tokens used. -/
def checkProofs {P : Type} [LinearOrder P] (cfg : Config P)
    (oracle : Oracle P) : Except String (List (ProofCheckResult P)) :=
  (checkProofsTrace cfg oracle cfg.propertyLocations 0).map
    (fun l => l.map (fun e => e.1))

/-- Decidable equality of `Except` values, for evaluating the engine on
concrete inputs. -/
instance {ε α : Type} [DecidableEq ε] [DecidableEq α] :
    DecidableEq (Except ε α) := fun x y =>
  match x, y with
  | .error a, .error b =>
      if h : a = b then .isTrue (congrArg Except.error h)
      else .isFalse (fun hxy => h (Except.error.inj hxy))
  | .ok a, .ok b =>
      if h : a = b then .isTrue (congrArg Except.ok h)
      else .isFalse (fun hxy => h (Except.ok.inj hxy))
  | .error _, .ok _ => .isFalse (fun hxy => Except.noConfusion hxy)
  | .ok _, .error _ => .isFalse (fun hxy => Except.noConfusion hxy)

/-- A service result conforms to a response schema when any parsed payload
it carries is admitted by the schema; the structured-outputs endpoint
guarantees this for the schema passed as `response_format`. -/
def respConforms {P : Type} : ServiceResult P → ResponseFormat → Prop
  | .apiError _, _ => True
  | .ok resp, rf => ∀ d, resp.parsed = some d → admitsData rf d = true

/-- The ceiling check of a turn passes (so the API call is issued). -/
def budgetAllows {P : Type} (est : String → Nat) (maxTokens : Option Int)
    (st : ConvState P) : Prop :=
  ∀ mt, maxTokens = some mt →
    0 < mt - (st.completionTokensUsed : Int) -
      (inputTokensInMessages est st.messages : Int)

/-- Projection of a `TurnResult` to the continuation state, if any. -/
def nextStateOf {P : Type} : TurnResult P → Option (ConvState P)
  | .next st => some st
  | _ => none

/-- Iterates `turn` through `n` consecutive continuation turns; `some`
means every one of the first `n` turns continued the loop. -/
def stepsFrom {P : Type} [LinearOrder P] (cfg : Config P) (oracle : Oracle P)
    (pl : PropertyLocation P) (maxTokens : Option Int) :
    Nat → ConvState P → Option (ConvState P)
  | 0, st => some st
  | n + 1, st =>
      match turn cfg oracle pl maxTokens st with
      | .next st' => stepsFrom cfg oracle pl maxTokens n st'
      | _ => none

/-- All files inlined by file-request turns so far (everything disclosed
after the initial message). -/
def postInitialDisclosed {P : Type} (st : ConvState P) : List P :=
  st.disclosures.tail.flatten

/-! Concrete fixtures, over the path type `Nat`, for evaluating the engine
on closed inputs. -/

/-- A degenerate tokenizer estimate: every text counts zero tokens. -/
def exEst : String → Nat := fun _ => 0

/-- A sample property location: file `0`, line 1. -/
def exPl : PropertyLocation Nat := ⟨0, 1⟩

/-- A three-file run in incremental-disclosure mode (threshold 0, so the
total document length reaches it). -/
def exCfgA : Config Nat :=
  { est := exEst
    maxMessages := 3
    minLengthToExcludeFullFiles := 0
    relPaths := [0, 1, 2]
    pathStr := fun _ => "f"
    contents := fun _ => ""
    fmt := fun _ _ => ""
    depsJson := none
    propertyLocations := [⟨0, 1⟩]
    maxTokensTotal := none
    maxTokensPerProperty := none }

/-- The same run in full-disclosure mode (threshold 1 exceeds the total
document length 0). -/
def exCfgB : Config Nat :=
  { exCfgA with minLengthToExcludeFullFiles := 1 }

/-- The incremental run with a turn budget of one message. -/
def exCfgStep1 : Config Nat :=
  { exCfgA with maxMessages := 1 }

/-- The incremental run with a total token budget of 1000. -/
def exCfgTotal : Config Nat :=
  { exCfgA with maxTokensTotal := some 1000 }

/-- The incremental run with a total token budget of 50. -/
def exCfgTotal50 : Config Nat :=
  { exCfgA with maxTokensTotal := some 50 }

/-- A single-file run in incremental-disclosure mode. -/
def exCfgOneFile : Config Nat :=
  { exCfgA with relPaths := [0] }

/-- A service that always returns a "correct" verdict costing 10 completion
tokens. -/
def exOracleVerdict : Oracle Nat :=
  fun _ _ => .ok ⟨some 10, some "v", some (.verdict ⟨.correct, "ok"⟩)⟩

/-- A service that always requests file `0` (the target file). -/
def exOracleReqTarget : Oracle Nat :=
  fun _ _ => .ok ⟨some 1, some "r", some (.filesRequested [0])⟩

/-- A service that always requests file `1`. -/
def exOracleReq1 : Oracle Nat :=
  fun _ _ => .ok ⟨some 1, some "r", some (.filesRequested [1])⟩

/-- A service that always requests files `[0, 1, 0]` (a known file twice
plus an unknown one). -/
def exOracleReq010 : Oracle Nat :=
  fun _ _ => .ok ⟨some 1, some "r", some (.filesRequested [0, 1, 0])⟩

/-- A service whose every call raises a request-rejection error. -/
def exOracleError : Oracle Nat :=
  fun _ _ => .apiError "boom"

/-- A small conversation state: one user message, nothing disclosed by
requests yet, file `0` inlined initially. -/
def exStSmall : ConvState Nat :=
  { filesShown := ∅
    messages := [⟨Role.user, "m"⟩]
    completionTokensUsed := 0
    inputTokensSent := 0
    callsMade := 0
    disclosures := [[0]] }

/-- The state after `exOracleReq1` answers `exStSmall` under `exCfgA`. -/
def exStSmallNext : ConvState Nat :=
  { filesShown := {1}
    messages :=
      [⟨Role.user, "m"⟩, ⟨Role.assistant, "r"⟩,
       ⟨Role.user, buildSubsequentMessage exCfgA [1]⟩]
    completionTokensUsed := 1
    inputTokensSent := 300
    callsMade := 1
    disclosures := [[0], [1]] }

/-- A state in which file `0` has already been disclosed. -/
def exStShown0 : ConvState Nat :=
  { filesShown := {0}
    messages := [⟨Role.user, "m"⟩]
    completionTokensUsed := 0
    inputTokensSent := 0
    callsMade := 0
    disclosures := [[0]] }

/-- The trace of the `exCfgTotal` run on its one property. -/
def exTr1 : List (ProofCheckResult Nat × Int × Option Int) :=
  [(⟨⟨0, 1⟩, .inl ⟨.correct, "ok"⟩⟩, 310, some 1000)]

/-! Helper lemmas about `resolveFilesRequested`. -/

/-- Every resolved file was requested, is known, and was not yet shown. -/
theorem mem_resolveFilesRequested {P : Type} [LinearOrder P]
    {all_files files_shown : Finset P} {requested : List P} {x : P}
    (hx : x ∈ resolveFilesRequested all_files files_shown requested) :
    x ∈ requested ∧ x ∈ all_files ∧ x ∉ files_shown := by
  unfold resolveFilesRequested at hx
  have h1 := List.mem_of_mem_take hx
  rw [List.mem_insertionSort] at h1
  simpa using h1

/-- The resolved list has no duplicates. -/
theorem nodup_resolveFilesRequested {P : Type} [LinearOrder P]
    (all_files files_shown : Finset P) (requested : List P) :
    (resolveFilesRequested all_files files_shown requested).Nodup := by
  unfold resolveFilesRequested
  refine List.Nodup.sublist (List.take_sublist _ _) ?_
  exact ((List.perm_insertionSort _ _).nodup_iff).mpr
    (List.Nodup.filter _ (List.nodup_dedup _))

/-- The resolved list is sorted in increasing path order. -/
theorem sorted_resolveFilesRequested {P : Type} [LinearOrder P]
    (all_files files_shown : Finset P) (requested : List P) :
    List.Sorted (· ≤ ·)
      (resolveFilesRequested all_files files_shown requested) := by
  unfold resolveFilesRequested
  exact List.Pairwise.sublist (List.take_sublist _ _)
    (List.sorted_insertionSort _ _)

/-- The resolved list enumerates the eligible set, truncated to
MAX_FILES_REQUESTED entries. -/
theorem length_resolveFilesRequested {P : Type} [LinearOrder P]
    (all_files files_shown : Finset P) (requested : List P) :
    (resolveFilesRequested all_files files_shown requested).length =
      min MAX_FILES_REQUESTED
        (((requested.toFinset ∩ all_files) \ files_shown).card) := by
  unfold resolveFilesRequested
  rw [List.length_take, (List.perm_insertionSort _ _).length_eq]
  congr 1
  have hnd : (requested.dedup.filter
      (fun p => decide (p ∈ all_files ∧ p ∉ files_shown))).Nodup :=
    List.Nodup.filter _ (List.nodup_dedup _)
  rw [← List.toFinset_card_of_nodup hnd]
  congr 1
  ext a
  simp [List.mem_filter, Finset.mem_sdiff, Finset.mem_inter, and_assoc]

/-- Every resolved file precedes, in path order, every eligible file that
was left out by the truncation. -/
theorem min_resolveFilesRequested {P : Type} [LinearOrder P]
    {all_files files_shown : Finset P} {requested : List P} {x y : P}
    (hx : x ∈ resolveFilesRequested all_files files_shown requested)
    (hy1 : y ∈ requested) (hy2 : y ∈ all_files) (hy3 : y ∉ files_shown)
    (hy4 : y ∉ resolveFilesRequested all_files files_shown requested) :
    x ≤ y := by
  have hsorted := List.sorted_insertionSort (· ≤ ·)
    (requested.dedup.filter
      (fun p => decide (p ∈ all_files ∧ p ∉ files_shown)))
  have hy_s : y ∈ List.insertionSort (· ≤ ·)
      (requested.dedup.filter
        (fun p => decide (p ∈ all_files ∧ p ∉ files_shown))) := by
    rw [List.mem_insertionSort]
    simp only [List.mem_filter, List.mem_dedup, decide_eq_true_eq]
    exact ⟨hy1, hy2, hy3⟩
  rw [← List.take_append_drop MAX_FILES_REQUESTED
    (List.insertionSort (· ≤ ·) _)] at hsorted hy_s
  have hy_drop : y ∈ (List.insertionSort (· ≤ ·)
      (requested.dedup.filter
        (fun p => decide (p ∈ all_files ∧ p ∉ files_shown)))).drop
      MAX_FILES_REQUESTED := by
    rcases List.mem_append.mp hy_s with h | h
    · exact absurd h hy4
    · exact h
  exact (List.pairwise_append.mp hsorted).2.2 x hx y hy_drop

/-- C4: the resolved disclosure set of a file-request turn consists of
requested, known, unshown paths (unknown paths dropped, duplicates
removed), is sorted by the total order on paths, has no duplicates, is
truncated to MAX_FILES_REQUESTED elements of the eligible set, and keeps
exactly the smallest eligible paths; being a function of the requested list
and the shown set, it is deterministic. -/
theorem C4_file_request_resolution {P : Type} [LinearOrder P]
    (all_files files_shown : Finset P) (requested : List P) :
    (∀ x ∈ resolveFilesRequested all_files files_shown requested,
      x ∈ requested ∧ x ∈ all_files ∧ x ∉ files_shown) ∧
    List.Sorted (· ≤ ·)
      (resolveFilesRequested all_files files_shown requested) ∧
    (resolveFilesRequested all_files files_shown requested).Nodup ∧
    (resolveFilesRequested all_files files_shown requested).length =
      min MAX_FILES_REQUESTED
        (((requested.toFinset ∩ all_files) \ files_shown).card) ∧
    (∀ x ∈ resolveFilesRequested all_files files_shown requested,
      ∀ y ∈ requested, y ∈ all_files → y ∉ files_shown →
        y ∉ resolveFilesRequested all_files files_shown requested →
        x ≤ y) :=
  ⟨fun _ hx => mem_resolveFilesRequested hx,
   sorted_resolveFilesRequested all_files files_shown requested,
   nodup_resolveFilesRequested all_files files_shown requested,
   length_resolveFilesRequested all_files files_shown requested,
   fun _ hx _ hy1 hy2 hy3 hy4 =>
     min_resolveFilesRequested hx hy1 hy2 hy3 hy4⟩

/-- C4 witness: eight distinct known, unshown files requested resolve to
exactly the five smallest, and the theorem's minimality conjunct applies
to the concrete instance. -/
theorem C4_witness :
    resolveFilesRequested (([0, 1, 2, 3, 4, 5, 6, 7] : List Nat).toFinset)
        ∅ [7, 3, 5, 1, 0, 2, 6, 4] = [0, 1, 2, 3, 4] ∧ (0 : Nat) ≤ 7 :=
  ⟨by decide,
   (C4_file_request_resolution
       (([0, 1, 2, 3, 4, 5, 6, 7] : List Nat).toFinset) ∅
       [7, 3, 5, 1, 0, 2, 6, 4]).2.2.2.2 0 (by decide) 7 (by decide)
     (by decide) (by decide) (by decide)⟩


/-- Anatomy of a continuation turn: the loop continues only when the call
succeeded with usage, content and a parsed file-request payload whose
resolution is non-empty, and the new state is the old one with the shown
set enlarged, the two messages appended, the usage accumulated, the input
estimate recorded, and the resolved files logged. -/
theorem turn_next_shape {P : Type} [LinearOrder P] {cfg : Config P}
    {oracle : Oracle P} {pl : PropertyLocation P} {maxTokens : Option Int}
    {st st' : ConvState P}
    (h : turn cfg oracle pl maxTokens st = .next st') :
    ∃ req u c,
      oracle st.messages (mckOf cfg.est maxTokens st) =
        .ok ⟨some u, some c, some (.filesRequested req)⟩ ∧
      resolveFilesRequested (allFilesOf cfg) st.filesShown req ≠ [] ∧
      st' = { filesShown := st.filesShown ∪
                (resolveFilesRequested (allFilesOf cfg) st.filesShown
                  req).toFinset
              messages := st.messages ++
                [⟨Role.assistant, c⟩,
                 ⟨Role.user, buildSubsequentMessage cfg
                   (resolveFilesRequested (allFilesOf cfg) st.filesShown
                     req)⟩]
              completionTokensUsed := st.completionTokensUsed + u
              inputTokensSent := inputTokensInMessages cfg.est st.messages
              callsMade := st.callsMade + 1
              disclosures := st.disclosures ++
                [resolveFilesRequested (allFilesOf cfg) st.filesShown
                  req] } := by
  have hcall : ∀ mt, turnCall cfg oracle pl mt st = .next st' →
      ∃ req u c,
        oracle st.messages (mckOf cfg.est mt st) =
          .ok ⟨some u, some c, some (.filesRequested req)⟩ ∧
        resolveFilesRequested (allFilesOf cfg) st.filesShown req ≠ [] ∧
        st' = { filesShown := st.filesShown ∪
                  (resolveFilesRequested (allFilesOf cfg) st.filesShown
                    req).toFinset
                messages := st.messages ++
                  [⟨Role.assistant, c⟩,
                   ⟨Role.user, buildSubsequentMessage cfg
                     (resolveFilesRequested (allFilesOf cfg) st.filesShown
                       req)⟩]
                completionTokensUsed := st.completionTokensUsed + u
                inputTokensSent :=
                  inputTokensInMessages cfg.est st.messages
                callsMade := st.callsMade + 1
                disclosures := st.disclosures ++
                  [resolveFilesRequested (allFilesOf cfg) st.filesShown
                    req] } := by
    intro mt hc
    unfold turnCall at hc
    rcases ho : oracle st.messages (mckOf cfg.est mt st) with e | resp
    · rw [ho] at hc
      exact absurd hc (by simp)
    · rw [ho] at hc
      rcases resp with ⟨u, c, p⟩
      rcases u with _ | u
      · exact absurd hc (by simp)
      rcases c with _ | c
      · exact absurd hc (by simp)
      rcases p with _ | p
      · exact absurd hc (by simp)
      rcases p with ce | req
      · exact absurd hc (by simp)
      simp only at hc
      by_cases hemp :
          resolveFilesRequested (allFilesOf cfg) st.filesShown req = []
      · rw [if_pos hemp] at hc
        exact absurd hc (by simp)
      · rw [if_neg hemp] at hc
        refine ⟨req, u, c, rfl, hemp, ?_⟩
        cases hc
        rfl
  rcases maxTokens with _ | mt
  · simp only [turn] at h
    exact hcall none h
  · simp only [turn] at h
    by_cases hb : mt - (st.completionTokensUsed : Int) -
        (inputTokensInMessages cfg.est st.messages : Int) ≤ 0
    · rw [if_pos hb] at h
      exact absurd h (by simp)
    · rw [if_neg hb] at h
      exact hcall (some mt) h

/-- A turn that returns a result reports a call count at most one beyond
the state's. -/
theorem turn_finished_calls {P : Type} [LinearOrder P] {cfg : Config P}
    {oracle : Oracle P} {pl : PropertyLocation P} {maxTokens : Option Int}
    {st : ConvState P} {r : ProofCheckResult P} {c : Int} {k : Nat}
    (h : turn cfg oracle pl maxTokens st = .finished r c k) :
    k ≤ st.callsMade + 1 := by
  have hcall : ∀ mt, turnCall cfg oracle pl mt st = .finished r c k →
      k ≤ st.callsMade + 1 := by
    intro mt hc
    unfold turnCall at hc
    rcases ho : oracle st.messages (mckOf cfg.est mt st) with e | resp
    · rw [ho] at hc
      simp only [TurnResult.finished.injEq] at hc
      obtain ⟨-, -, hk⟩ := hc
      omega
    · rw [ho] at hc
      rcases resp with ⟨u, c', p⟩
      rcases u with _ | u
      · exact absurd hc (by simp)
      rcases c' with _ | c'
      · exact absurd hc (by simp)
      rcases p with _ | p
      · exact absurd hc (by simp)
      rcases p with ce | req
      · simp only [TurnResult.finished.injEq] at hc
        obtain ⟨-, -, hk⟩ := hc
        omega
      simp only at hc
      by_cases hemp :
          resolveFilesRequested (allFilesOf cfg) st.filesShown req = []
      · rw [if_pos hemp] at hc
        exact absurd hc (by simp)
      · rw [if_neg hemp] at hc
        exact absurd hc (by simp)
  rcases maxTokens with _ | mt
  · simp only [turn] at h
    exact hcall none h
  · simp only [turn] at h
    by_cases hb : mt - (st.completionTokensUsed : Int) -
        (inputTokensInMessages cfg.est st.messages : Int) ≤ 0
    · rw [if_pos hb] at h
      simp only [TurnResult.finished.injEq] at h
      obtain ⟨-, -, hk⟩ := h
      omega
    · rw [if_neg hb] at h
      exact hcall (some mt) h

/-- C3 (amended): within a conversation the set of already-shown files only
grows, and no file is disclosed twice BY FILE-REQUEST TURNS: the files
inlined by follow-up messages are pairwise distinct and always already
recorded as shown.  (The initial message's inlined files — the target file
in incremental mode — are not recorded in the shown set, so the original
claim's "never inlined twice" does not extend to them; see the
counterexample.) -/
theorem C3_monotonic_disclosure {P : Type} [LinearOrder P] :
    (∀ (cfg : Config P) (oracle : Oracle P) (pl : PropertyLocation P)
        (mt : Option Int) (st st' : ConvState P),
      turn cfg oracle pl mt st = .next st' →
      st.filesShown ⊆ st'.filesShown) ∧
    (∀ (cfg : Config P) (oracle : Oracle P) (pl : PropertyLocation P)
        (mt : Option Int) (st st' : ConvState P),
      turn cfg oracle pl mt st = .next st' →
      (∀ x ∈ postInitialDisclosed st, x ∈ st.filesShown) →
      (∀ x ∈ postInitialDisclosed st', x ∈ st'.filesShown) ∧
        ((postInitialDisclosed st).Nodup →
          (postInitialDisclosed st').Nodup)) ∧
    (∀ (cfg : Config P) (pl : PropertyLocation P),
      postInitialDisclosed (initialState cfg pl) = []) := by
  refine ⟨?_, ?_, ?_⟩
  · intro cfg oracle pl mt st st' h
    obtain ⟨req, u, c, -, -, hst⟩ := turn_next_shape h
    subst hst
    exact Finset.subset_union_left
  · intro cfg oracle pl mt st st' h hshown
    obtain ⟨req, u, c, -, -, hst⟩ := turn_next_shape h
    have hdisc : st'.disclosures = st.disclosures ++
        [resolveFilesRequested (allFilesOf cfg) st.filesShown req] := by
      rw [hst]
    have hfs : st'.filesShown = st.filesShown ∪
        (resolveFilesRequested (allFilesOf cfg) st.filesShown
          req).toFinset := by
      rw [hst]
    rcases hd : st.disclosures with _ | ⟨d, ds⟩
    · have hps2 : postInitialDisclosed st' = [] := by
        unfold postInitialDisclosed
        rw [hdisc, hd]
        rfl
      constructor
      · intro x hx
        rw [hps2] at hx
        exact absurd hx (List.not_mem_nil x)
      · intro _
        rw [hps2]
        exact List.nodup_nil
    · have hps : postInitialDisclosed st = ds.flatten := by
        unfold postInitialDisclosed
        rw [hd, List.tail_cons]
      have hps2 : postInitialDisclosed st' = ds.flatten ++
          resolveFilesRequested (allFilesOf cfg) st.filesShown req := by
        unfold postInitialDisclosed
        rw [hdisc, hd]
        simp
      rw [hps] at hshown
      constructor
      · intro x hx
        rw [hps2, List.mem_append] at hx
        rw [hfs]
        rcases hx with hx | hx
        · exact Finset.mem_union_left _ (hshown x hx)
        · exact Finset.mem_union_right _ (List.mem_toFinset.mpr hx)
      · intro hnd
        rw [hps] at hnd
        rw [hps2, List.nodup_append]
        refine ⟨hnd, nodup_resolveFilesRequested _ _ _, ?_⟩
        intro x hx hx'
        exact (mem_resolveFilesRequested hx').2.2 (hshown x hx)
  · intro cfg pl
    rfl

/-- C3 counterexample: in incremental mode the target file (here `0`) is
inlined by the initial message but not recorded as shown, so a request for
it is honoured and its contents are inlined a second time: the reached
state's disclosure log is `[[0], [0]]`, which lists file `0` twice. -/
theorem C3_counterexample :
    (Option.map (fun st => st.disclosures)
      (nextStateOf (turn exCfgA exOracleReqTarget exPl none
        (initialState exCfgA exPl)))) = some [[0], [0]] ∧
    (Option.map (fun st => decide st.disclosures.flatten.Nodup)
      (nextStateOf (turn exCfgA exOracleReqTarget exPl none
        (initialState exCfgA exPl)))) = some false := by
  constructor
  · decide
  · decide

/-- C3 witness: a concrete continuation turn under `exCfgA` in which the
shown set grows and the post-initial disclosures stay duplicate-free. -/
theorem C3_witness :
    exStSmall.filesShown ⊆ exStSmallNext.filesShown ∧
    (postInitialDisclosed exStSmallNext).Nodup := by
  have h : turn exCfgA exOracleReq1 exPl none exStSmall =
      .next exStSmallNext := by decide
  refine ⟨C3_monotonic_disclosure.1 exCfgA exOracleReq1 exPl none exStSmall
    exStSmallNext h, ?_⟩
  have h2 := C3_monotonic_disclosure.2.1 exCfgA exOracleReq1 exPl none
    exStSmall exStSmallNext h (by decide)
  exact h2.2 (by decide)

/-- C6: a file-request turn whose resolved disclosure set is empty raises
the fatal "Invalid response" error, which aborts the conversation loop
(and hence the run: `check_proofs` forwards the error instead of recording
a Failure result). -/
theorem C6_empty_resolution_fatal {P : Type} [LinearOrder P] :
    (∀ (cfg : Config P) (oracle : Oracle P) (pl : PropertyLocation P)
        (mt : Option Int) (st : ConvState P) (u : Nat) (c : String)
        (req : List P),
      budgetAllows cfg.est mt st →
      oracle st.messages (mckOf cfg.est mt st) =
        .ok ⟨some u, some c, some (.filesRequested req)⟩ →
      resolveFilesRequested (allFilesOf cfg) st.filesShown req = [] →
      turn cfg oracle pl mt st = .fatal "Invalid response" ∧
      ∀ fuel, checkProofLoop cfg oracle pl mt (fuel + 1) st =
        .error "Invalid response") ∧
    (∀ (cfg : Config P) (oracle : Oracle P) (pl : PropertyLocation P)
        (rest : List (PropertyLocation P)) (used : Int) (e : String),
      checkProof cfg oracle pl
        (maxTokensFor cfg.maxTokensTotal cfg.maxTokensPerProperty used) =
        .error e →
      checkProofsTrace cfg oracle (pl :: rest) used = .error e) := by
  constructor
  · intro cfg oracle pl mt st u c req hb ho hres
    have hcall : turnCall cfg oracle pl mt st =
        .fatal "Invalid response" := by
      unfold turnCall
      rw [ho]
      simp [hres]
    have hturn : turn cfg oracle pl mt st = .fatal "Invalid response" := by
      rcases mt with _ | m
      · simpa only [turn] using hcall
      · simp only [turn]
        rw [if_neg (not_le.mpr (hb m rfl))]
        exact hcall
    refine ⟨hturn, fun fuel => ?_⟩
    simp [checkProofLoop, hturn]
  · intro cfg oracle pl rest used e h
    simp [checkProofsTrace, h]

/-- C6 witness: the request `[0, 1, 0]` when only file `0` is known and
already shown resolves to the empty set, so the turn is fatal and the loop
aborts with the error instead of a Failure result. -/
theorem C6_witness :
    turn exCfgOneFile exOracleReq010 exPl none exStShown0 =
      .fatal "Invalid response" ∧
    checkProofLoop exCfgOneFile exOracleReq010 exPl none 3 exStShown0 =
      .error "Invalid response" := by
  have h := C6_empty_resolution_fatal.1 exCfgOneFile exOracleReq010 exPl
    none exStShown0 1 "r" [0, 1, 0]
    (fun m hm => Option.noConfusion hm) rfl (by decide)
  exact ⟨h.1, h.2 2⟩

/-- C8: when the service rejects a request or truncates it for length, the
property fails with the service's error text and the reported token cost is
the configured ceiling when one is set, else the hard context cap.  (The
code computes `max_tokens or MAX_CONTEXT_LENGTH`, but a turn that reaches
the API call has a strictly positive ceiling, so the falsy-zero case
cannot fire.) -/
theorem C8_api_error_cost {P : Type} [LinearOrder P] :
    ∀ (cfg : Config P) (oracle : Oracle P) (pl : PropertyLocation P)
        (mt : Option Int) (st : ConvState P) (e : String),
      budgetAllows cfg.est mt st →
      oracle st.messages (mckOf cfg.est mt st) = .apiError e →
      turn cfg oracle pl mt st =
        .finished ⟨pl, .inr ⟨e⟩⟩ (mt.getD MAX_CONTEXT_LENGTH)
          (st.callsMade + 1) := by
  intro cfg oracle pl mt st e hb ho
  have hcall : turnCall cfg oracle pl mt st =
      .finished ⟨pl, .inr ⟨e⟩⟩ (falsyOrElse mt MAX_CONTEXT_LENGTH)
        (st.callsMade + 1) := by
    unfold turnCall
    rw [ho]
  rcases mt with _ | m
  · simp only [turn]
    rw [hcall]
    rfl
  · have hm : 0 < m - (st.completionTokensUsed : Int) -
        (inputTokensInMessages cfg.est st.messages : Int) := hb m rfl
    simp only [turn]
    rw [if_neg (not_le.mpr hm), hcall]
    have hms : falsyOrElse (some m) MAX_CONTEXT_LENGTH = m := by
      simp only [falsyOrElse]
      rw [if_neg (show ¬ m = 0 by omega)]
    rw [hms]
    rfl

/-- C8 witness: a rejected call under a ceiling of 1000 fails the property
with the service's error text and charges exactly the ceiling. -/
theorem C8_witness :
    turn exCfgA exOracleError exPl (some 1000) exStSmall =
      .finished ⟨exPl, .inr ⟨"boom"⟩⟩ 1000 1 :=
  C8_api_error_cost exCfgA exOracleError exPl (some 1000) exStSmall "boom"
    (fun m hm => by
      injection hm with h
      subst h
      decide)
    rfl

/-- The loop's reported call count is bounded by the starting count plus
the remaining fuel. -/
theorem checkProofLoop_calls {P : Type} [LinearOrder P] {cfg : Config P}
    {oracle : Oracle P} {pl : PropertyLocation P} {mt : Option Int} :
    ∀ (fuel : Nat) (st : ConvState P) {r : ProofCheckResult P} {c : Int}
      {k : Nat},
      checkProofLoop cfg oracle pl mt fuel st = .ok (r, c, k) →
      k ≤ st.callsMade + fuel := by
  intro fuel
  induction fuel with
  | zero =>
    intro st r c k h
    exact absurd h (by simp [checkProofLoop])
  | succ n ih =>
    intro st r c k h
    rw [checkProofLoop] at h
    rcases ht : turn cfg oracle pl mt st with ⟨r', c', k'⟩ | ⟨m⟩ | ⟨st'⟩
    · rw [ht] at h
      simp only [Except.ok.injEq, Prod.mk.injEq] at h
      obtain ⟨-, -, hk⟩ := h
      have hkb := turn_finished_calls ht
      omega
    · rw [ht] at h
      exact absurd h (by simp)
    · rw [ht] at h
      have hnext := ih st' h
      obtain ⟨req, u, c'', -, -, hst⟩ := turn_next_shape ht
      have hc : st'.callsMade = st.callsMade + 1 := by
        rw [hst]
      omega

/-- If every turn within the fuel continues the loop, the loop exhausts
its fuel and raises the timeout error. -/
theorem checkProofLoop_steps_error {P : Type} [LinearOrder P]
    {cfg : Config P} {oracle : Oracle P} {pl : PropertyLocation P}
    {mt : Option Int} :
    ∀ (fuel : Nat) (st : ConvState P),
      (stepsFrom cfg oracle pl mt fuel st).isSome = true →
      checkProofLoop cfg oracle pl mt fuel st =
        .error "No result after max messages" := by
  intro fuel
  induction fuel with
  | zero =>
    intro st _
    rfl
  | succ n ih =>
    intro st hs
    rw [stepsFrom] at hs
    rcases ht : turn cfg oracle pl mt st with ⟨r, c, k⟩ | ⟨m⟩ | ⟨st'⟩
    · rw [ht] at hs
      simp at hs
    · rw [ht] at hs
      simp at hs
    · rw [ht] at hs
      rw [checkProofLoop, ht]
      exact ih st' hs

/-- C7: the number of API calls of a conversation never exceeds the
configured `max_messages`, and a conversation whose first `max_messages`
turns all continue aborts the run with the fatal timeout error instead of
producing a per-property Failure result. -/
theorem C7_turn_budget {P : Type} [LinearOrder P] :
    (∀ (cfg : Config P) (oracle : Oracle P) (pl : PropertyLocation P)
        (mt : Option Int) (r : ProofCheckResult P) (c : Int) (k : Nat),
      checkProof cfg oracle pl mt = .ok (r, c, k) →
      k ≤ cfg.maxMessages) ∧
    (∀ (cfg : Config P) (oracle : Oracle P) (pl : PropertyLocation P)
        (mt : Option Int),
      (stepsFrom cfg oracle pl mt cfg.maxMessages
        (initialState cfg pl)).isSome = true →
      checkProof cfg oracle pl mt =
        .error "No result after max messages") := by
  constructor
  · intro cfg oracle pl mt r c k h
    have hb := checkProofLoop_calls cfg.maxMessages (initialState cfg pl) h
    have h0 : (initialState cfg pl).callsMade = 0 := rfl
    omega
  · intro cfg oracle pl mt hs
    exact checkProofLoop_steps_error cfg.maxMessages (initialState cfg pl) hs

/-- C7 witness: a verdict conversation under `exCfgA` stays within its
three-message budget, and under a one-message budget a file-requesting
service makes the run abort with the timeout error. -/
theorem C7_witness :
    (1 : Nat) ≤ exCfgA.maxMessages ∧
    checkProof exCfgStep1 exOracleReq1 exPl none =
      .error "No result after max messages" := by
  constructor
  · exact C7_turn_budget.1 exCfgA exOracleVerdict exPl none
      ⟨exPl, .inl ⟨.correct, "ok"⟩⟩ 310 1 (by decide)
  · exact C7_turn_budget.2 exCfgStep1 exOracleReq1 exPl none (by decide)

/-- C9: in full-disclosure mode the response schema has no file-request
member, so (for a service honouring the schema) no turn ever continues the
loop: every conversation makes at most one API call. -/
theorem C9_full_disclosure_single_call {P : Type} [LinearOrder P] :
    ∀ (cfg : Config P) (oracle : Oracle P) (pl : PropertyLocation P)
        (mt : Option Int),
      cfg.excludeFullFiles = false →
      (∀ msgs mck,
        respConforms (oracle msgs mck) (responseFormatUsed cfg)) →
      (∀ files : List P,
        admitsData (responseFormatUsed cfg)
          (.filesRequested files) = false) ∧
      (∀ st st', turn cfg oracle pl mt st ≠ .next st') ∧
      (∀ (r : ProofCheckResult P) (c : Int) (k : Nat),
        checkProof cfg oracle pl mt = .ok (r, c, k) → k ≤ 1) := by
  intro cfg oracle pl mt hexcl hconf
  have hfmt : responseFormatUsed cfg = .fullFilesIncluded := by
    simp [responseFormatUsed, hexcl]
  have hadm : ∀ files : List P,
      admitsData (responseFormatUsed cfg)
        (.filesRequested files) = false := by
    intro files
    rw [hfmt]
    rfl
  have hnonext : ∀ st st', turn cfg oracle pl mt st ≠ .next st' := by
    intro st st' h
    obtain ⟨req, u, c, ho, -, -⟩ := turn_next_shape h
    have hc := hconf st.messages (mckOf cfg.est mt st)
    rw [ho] at hc
    have hh := hc (.filesRequested req) rfl
    rw [hadm req] at hh
    exact Bool.noConfusion hh
  refine ⟨hadm, hnonext, ?_⟩
  intro r c k h
  unfold checkProof at h
  rcases hmm : cfg.maxMessages with _ | n
  · rw [hmm] at h
    exact absurd h (by simp [checkProofLoop])
  · rw [hmm, checkProofLoop] at h
    rcases ht : turn cfg oracle pl mt (initialState cfg pl)
      with ⟨r', c', k'⟩ | ⟨m⟩ | ⟨st'⟩
    · rw [ht] at h
      simp only [Except.ok.injEq, Prod.mk.injEq] at h
      obtain ⟨-, -, hk⟩ := h
      have hkb := turn_finished_calls ht
      have h0 : (initialState cfg pl).callsMade = 0 := rfl
      omega
    · rw [ht] at h
      exact absurd h (by simp)
    · exact absurd ht (hnonext _ _)

/-- C9 witness: a full-disclosure conversation with a schema-honouring
verdict service terminates on its first call, with exactly one call made. -/
theorem C9_witness :
    checkProof exCfgB exOracleVerdict exPl none =
      .ok (⟨exPl, .inl ⟨.correct, "ok"⟩⟩, 310, 1) ∧ (1 : Nat) ≤ 1 := by
  have h := C9_full_disclosure_single_call exCfgB exOracleVerdict exPl none
    (by decide)
    (fun msgs mck => by
      intro d hd
      injection hd with h'
      subst h'
      rfl)
  exact ⟨by decide, h.2.2 ⟨exPl, .inl ⟨.correct, "ok"⟩⟩ 310 1 (by decide)⟩

/-- A ceiling not exceeding the initial message's input estimate makes the
very first turn skip the call and fail, reporting zero cost and zero calls
(the last-sent input estimate is still its initial zero). -/
theorem checkProof_first_turn_limit {P : Type} [LinearOrder P]
    {cfg : Config P} {oracle : Oracle P} {pl : PropertyLocation P}
    {mt : Int} (hmm : 1 ≤ cfg.maxMessages)
    (hle : mt ≤ (inputTokensInMessages cfg.est
      [⟨Role.user, buildInitialMessage cfg pl⟩] : Int)) :
    checkProof cfg oracle pl (some mt) =
      .ok (⟨pl, .inr ⟨"Token limit reached"⟩⟩, 0, 0) := by
  obtain ⟨n, hn⟩ : ∃ n, cfg.maxMessages = n + 1 :=
    ⟨cfg.maxMessages - 1, by omega⟩
  unfold checkProof
  rw [hn, checkProofLoop]
  have hpos : mt - ((initialState cfg pl).completionTokensUsed : Int) -
      (inputTokensInMessages cfg.est
        (initialState cfg pl).messages : Int) ≤ 0 := by
    have h0 : (initialState cfg pl).completionTokensUsed = 0 := rfl
    have h1 : (initialState cfg pl).messages =
        [⟨Role.user, buildInitialMessage cfg pl⟩] := rfl
    rw [h0, h1]
    omega
  have hturn : turn cfg oracle pl (some mt) (initialState cfg pl) =
      .finished ⟨pl, .inr ⟨"Token limit reached"⟩⟩ 0 0 := by
    simp only [turn]
    rw [if_pos hpos]
    rfl
  rw [hturn]

/-- C2: with a configured ceiling every turn first recomputes
`remaining = ceiling - completion tokens used - input estimate` (user
messages only, tokenizer estimate plus envelope overhead each) and, when
`remaining ≤ 0`, skips the call and fails the property with
"Token limit reached" at a cost of tokens spent plus the last known input
estimate; in particular an initial estimate at or above the ceiling fails
with zero calls made. -/
theorem C2_token_ceiling_enforcement {P : Type} [LinearOrder P] :
    (∀ (cfg : Config P) (oracle : Oracle P) (pl : PropertyLocation P)
        (mt : Int) (st : ConvState P),
      mt - (st.completionTokensUsed : Int) -
        (inputTokensInMessages cfg.est st.messages : Int) ≤ 0 →
      turn cfg oracle pl (some mt) st =
        .finished ⟨pl, .inr ⟨"Token limit reached"⟩⟩
          ((st.completionTokensUsed : Int) + (st.inputTokensSent : Int))
          st.callsMade) ∧
    (∀ (cfg : Config P) (oracle : Oracle P) (pl : PropertyLocation P)
        (mt : Int),
      1 ≤ cfg.maxMessages →
      mt ≤ (inputTokensInMessages cfg.est
        [⟨Role.user, buildInitialMessage cfg pl⟩] : Int) →
      checkProof cfg oracle pl (some mt) =
        .ok (⟨pl, .inr ⟨"Token limit reached"⟩⟩, 0, 0)) := by
  constructor
  · intro cfg oracle pl mt st h
    simp only [turn]
    rw [if_pos h]
  · intro cfg oracle pl mt h1 h2
    exact checkProof_first_turn_limit h1 h2

/-- C2 witness: a ceiling of 100 against an initial input estimate of 300
(envelope overhead alone) fails immediately with zero calls and zero
reported cost. -/
theorem C2_witness :
    checkProof exCfgA exOracleVerdict exPl (some 100) =
      .ok (⟨exPl, .inr ⟨"Token limit reached"⟩⟩, 0, 0) :=
  C2_token_ceiling_enforcement.2 exCfgA exOracleVerdict exPl 100
    (by decide) (by decide)

/-- C10: a conversation whose ceiling is exhausted before its first call
reports a cost of exactly zero (the last-sent input estimate is updated
only after a successful call), so once the total budget is used up every
remaining property fails with "Token limit reached" while adding zero to
the running total — and the computed ceilings stay constant. -/
theorem C10_zero_cost_after_exhaustion {P : Type} [LinearOrder P] :
    (∀ (cfg : Config P) (oracle : Oracle P) (pl : PropertyLocation P)
        (mt : Int),
      1 ≤ cfg.maxMessages → mt ≤ 0 →
      checkProof cfg oracle pl (some mt) =
        .ok (⟨pl, .inr ⟨"Token limit reached"⟩⟩, 0, 0)) ∧
    (∀ (cfg : Config P) (oracle : Oracle P) (t : Int)
        (props : List (PropertyLocation P)) (used : Int),
      cfg.maxTokensTotal = some t → 1 ≤ cfg.maxMessages → t ≤ used →
      checkProofsTrace cfg oracle props used =
        .ok (props.map (fun pl =>
          (⟨pl, .inr ⟨"Token limit reached"⟩⟩, 0,
            maxTokensFor (some t) cfg.maxTokensPerProperty used)))) := by
  have hfirst : ∀ (cfg : Config P) (oracle : Oracle P)
      (pl : PropertyLocation P) (mt : Int),
      1 ≤ cfg.maxMessages → mt ≤ 0 →
      checkProof cfg oracle pl (some mt) =
        .ok (⟨pl, .inr ⟨"Token limit reached"⟩⟩, 0, 0) := by
    intro cfg oracle pl mt h1 h2
    refine checkProof_first_turn_limit h1 ?_
    have hnn : (0 : Int) ≤ (inputTokensInMessages cfg.est
        [⟨Role.user, buildInitialMessage cfg pl⟩] : Int) :=
      Int.natCast_nonneg _
    omega
  refine ⟨hfirst, ?_⟩
  intro cfg oracle t props used htot hmm hused
  induction props with
  | nil => rfl
  | cons pl rest ih =>
    have hceil : ∃ m, maxTokensFor cfg.maxTokensTotal
        cfg.maxTokensPerProperty used = some m ∧ m ≤ 0 := by
      rw [htot]
      rcases cfg.maxTokensPerProperty with _ | p
      · refine ⟨_, rfl, ?_⟩
        have hc := min_le_left (t - used) MAX_CONTEXT_LENGTH
        omega
      · refine ⟨_, rfl, ?_⟩
        have hc1 := min_le_right p (min (t - used) MAX_CONTEXT_LENGTH)
        have hc2 := min_le_left (t - used) MAX_CONTEXT_LENGTH
        omega
    obtain ⟨m, hm, hm0⟩ := hceil
    rw [checkProofsTrace, htot]
    rw [htot] at hm
    rw [hm, hfirst cfg oracle pl m hmm hm0]
    simp only [add_zero, ih, List.map_cons]
    rw [hm]

/-- C10 witness: with a total budget of 50 already overdrawn to 100, both
remaining properties fail at zero cost under a constant ceiling. -/
theorem C10_witness :
    checkProofsTrace exCfgTotal50 exOracleVerdict
      [⟨0, 1⟩, ⟨1, 2⟩] 100 =
      .ok (([⟨0, 1⟩, ⟨1, 2⟩] : List (PropertyLocation Nat)).map (fun pl =>
        (⟨pl, .inr ⟨"Token limit reached"⟩⟩, 0,
          maxTokensFor (some 50) exCfgTotal50.maxTokensPerProperty 100))) :=
  C10_zero_cost_after_exhaustion.2 exCfgTotal50 exOracleVerdict 50
    [⟨0, 1⟩, ⟨1, 2⟩] 100 rfl (by decide) (by decide)

/-- The ceiling recorded for the i-th property of a trace is computed from
the sum of the costs of the properties completed before it. -/
theorem checkProofsTrace_ceilings {P : Type} [LinearOrder P]
    (cfg : Config P) (oracle : Oracle P) :
    ∀ (props : List (PropertyLocation P)) (used0 : Int)
      (tr : List (ProofCheckResult P × Int × Option Int)),
      checkProofsTrace cfg oracle props used0 = .ok tr →
      ∀ i (hi : i < tr.length),
        (tr.get ⟨i, hi⟩).2.2 =
          maxTokensFor cfg.maxTokensTotal cfg.maxTokensPerProperty
            (used0 + ((tr.take i).map (fun e => e.2.1)).sum) := by
  intro props
  induction props with
  | nil =>
    intro used0 tr h i hi
    rw [checkProofsTrace] at h
    simp only [Except.ok.injEq] at h
    subst h
    simp at hi
  | cons pl rest ih =>
    intro used0 tr h i hi
    rw [checkProofsTrace] at h
    split at h
    · exact absurd h (by simp)
    · rename_i pcr cost calls hcp
      split at h
      · exact absurd h (by simp)
      · rename_i rest' htr
        simp only [Except.ok.injEq] at h
        subst h
        rcases i with _ | j
        · simp
        · have hj : j < rest'.length := by simpa using hi
          have hrec := ih (used0 + cost) rest' htr j hj
          simp only [List.get_cons_succ, List.take_succ_cons,
            List.map_cons, List.sum_cons]
          rw [hrec]
          congr 1
          ring

/-- C1: in a run of `check_proofs`, the ceiling computed for each property
equals the claim's formula — no ceiling when both limits are unset,
`min(per_property, cap)` when only the per-property limit is set,
`min(total - used, cap)` when only the total is set, and the three-way
minimum when both are set — where `used` is the sum of the costs of the
previously completed properties, accumulated only as conversations
terminate. -/
theorem C1_budget_allocation {P : Type} [LinearOrder P] (cfg : Config P)
    (oracle : Oracle P)
    (tr : List (ProofCheckResult P × Int × Option Int))
    (h : checkProofsTrace cfg oracle cfg.propertyLocations 0 = .ok tr) :
    ∀ i (hi : i < tr.length),
      (tr.get ⟨i, hi⟩).2.2 =
        (match cfg.maxTokensPerProperty, cfg.maxTokensTotal with
         | none, none => none
         | none, some t => some (min
             (t - ((tr.take i).map (fun e => e.2.1)).sum)
             MAX_CONTEXT_LENGTH)
         | some p, none => some (min p MAX_CONTEXT_LENGTH)
         | some p, some t => some (min p (min
             (t - ((tr.take i).map (fun e => e.2.1)).sum)
             MAX_CONTEXT_LENGTH))) := by
  intro i hi
  have hrec := checkProofsTrace_ceilings cfg oracle cfg.propertyLocations
    0 tr h i hi
  rw [hrec, zero_add]
  rcases cfg.maxTokensPerProperty with _ | p <;>
    rcases cfg.maxTokensTotal with _ | t <;> rfl

/-- C1 witness: a one-property run with a total budget of 1000 computes the
ceiling `min(1000 - 0, 100000) = 1000` for its only property. -/
theorem C1_witness :
    checkProofsTrace exCfgTotal exOracleVerdict
      exCfgTotal.propertyLocations 0 = .ok exTr1 ∧
    (exTr1.get ⟨0, by decide⟩).2.2 = some 1000 := by
  have h : checkProofsTrace exCfgTotal exOracleVerdict
      exCfgTotal.propertyLocations 0 = .ok exTr1 := by decide
  refine ⟨h, ?_⟩
  have h2 := C1_budget_allocation exCfgTotal exOracleVerdict exTr1 h 0
    (by decide)
  exact h2.trans (by decide)

/-- C5: the disclosure decision is the pure comparison of the total
character length of all documents against the configured threshold: below
the threshold the flag is false, every initial message inlines every
file's contents and the chosen schema has no file-request member; at or
above it the flag is true and every initial message inlines only the
target file. -/
theorem C5_disclosure_policy {P : Type} [LinearOrder P] (cfg : Config P) :
    ((cfg.documents.map (fun d => (d.length : Int))).sum <
        cfg.minLengthToExcludeFullFiles ↔
      cfg.excludeFullFiles = false) ∧
    (cfg.excludeFullFiles = false →
      (∀ pl, initialDisclosures cfg pl = cfg.relPaths) ∧
      responseFormatUsed cfg = ResponseFormat.fullFilesIncluded ∧
      ∀ files : List P,
        admitsData (responseFormatUsed cfg)
          (.filesRequested files) = false) ∧
    (cfg.excludeFullFiles = true →
      (∀ pl, initialDisclosures cfg pl = [pl.rel_path]) ∧
      responseFormatUsed cfg = ResponseFormat.fullFilesExcluded) := by
  refine ⟨?_, ?_, ?_⟩
  · simp only [Config.excludeFullFiles, decide_eq_false_iff_not, not_le]
  · intro hexcl
    refine ⟨fun pl => ?_, ?_, fun files => ?_⟩
    · simp [initialDisclosures, hexcl]
    · simp [responseFormatUsed, hexcl]
    · simp [responseFormatUsed, hexcl, admitsData]
  · intro hexcl
    refine ⟨fun pl => ?_, ?_⟩
    · simp [initialDisclosures, hexcl]
    · simp [responseFormatUsed, hexcl]

/-- C5 witness: the full-disclosure run inlines all three files and its
schema rejects file requests, while the incremental run inlines only the
target file. -/
theorem C5_witness :
    initialDisclosures exCfgB exPl = exCfgB.relPaths ∧
    admitsData (responseFormatUsed exCfgB)
      (ResponseData.filesRequested ([] : List Nat)) = false ∧
    initialDisclosures exCfgA exPl = [exPl.rel_path] := by
  have hB := (C5_disclosure_policy exCfgB).2.1 (by decide)
  have hA := (C5_disclosure_policy exCfgA).2.2 (by decide)
  exact ⟨hB.1 exPl, hB.2.2 [], hA.1 exPl⟩
